import Mathlib

/-!
Shallow embedding of the scoring logic of `sih4c`:

* `src/model/chainlink_ml_server.py` — `ChainlinkMLAPI.predict_damage_from_hash`
  (lines 231-274), `ChainlinkMLAPI.predict_damage_from_data` (lines 162-229),
  and the Flask handler `predict_from_hash` (lines 383-407);
* `src/model/ml_api_server.py` — `ChainlinkMLAPI.predict_damage` (lines 68-108);
* `src/Temperature Server/tempe.py` — the `/sensor` handler `get_sensor_data`
  (lines 9-21).

Python floats are modelled as exact rationals (`ℚ`), Python ints as `ℤ`/`ℕ`.
Python's `int(x)` on a float truncates toward zero; Python's `%` on ints has
the sign of the divisor, which matches `Int.emod`.  Hash strings are modelled
as `List Char`, and `int(s, 16)` is modelled faithfully including stripped
surrounding whitespace, an optional sign, an optional `0x`/`0X` marker, and
single underscores between digits.
-/

/-- The two class labels of the model (`self.classes = ['fresh', 'rotten']`). -/
inductive Verdict where
  | fresh
  | rotten
deriving DecidableEq

/-- Value of a single hexadecimal digit character, `none` for non-hex chars. -/
def hexVal (c : Char) : Option ℕ :=
  if '0' ≤ c ∧ c ≤ '9' then some (c.toNat - '0'.toNat)
  else if 'a' ≤ c ∧ c ≤ 'f' then some (c.toNat - 'a'.toNat + 10)
  else if 'A' ≤ c ∧ c ≤ 'F' then some (c.toNat - 'A'.toNat + 10)
  else none

/-- ASCII whitespace stripped by Python's `int(str, base)` conversion. -/
def isPySpace (c : Char) : Bool :=
  c = ' ' || c = '\t' || c = '\n' || c = '\r' || c = Char.ofNat 11 || c = Char.ofNat 12

/-- Strip leading and trailing whitespace, as `int(s, 16)` does. -/
def stripPySpaces (s : List Char) : List Char :=
  ((s.dropWhile isPySpace).reverse.dropWhile isPySpace).reverse

/-- Scan a digit run with single underscores allowed between digits
(CPython's grammar for the digit part of `int(s, 16)`).  The flag records
whether the previous character was a digit (so an underscore is allowed). -/
def scanHexDigits : ℕ → Bool → List Char → Option ℕ
  | acc, afterDigit, [] => if afterDigit then some acc else none
  | acc, afterDigit, c :: rest =>
      if c = '_' then
        if afterDigit then scanHexDigits acc false rest else none
      else
        match hexVal c with
        | some v => scanHexDigits (16 * acc + v) true rest
        | none => none

/-- Digit part of `int(s, 16)`: nonempty, starting with a digit. -/
def parseHexDigits (s : List Char) : Option ℕ :=
  scanHexDigits 0 false s

/-- Digit part with the optional `0x`/`0X` marker of `int(s, 16)`; a single
underscore directly after the marker is allowed (`int("0x_1A", 16)` is valid). -/
def parseHexUnsigned : List Char → Option ℕ
  | a :: b :: rest =>
      if a = '0' ∧ (b = 'x' ∨ b = 'X') then
        if rest.head? = some '_' then parseHexDigits rest.tail else parseHexDigits rest
      else parseHexDigits (a :: b :: rest)
  | s => parseHexDigits s

/-- Python's `int(s, 16)`: stripped whitespace, optional sign, optional
`0x`/`0X` marker, underscore-separated hex digits.  `none` models the
`ValueError` that `int` raises on a malformed literal. -/
def pyIntBase16 (s : List Char) : Option ℤ :=
  let t := stripPySpaces s
  match t with
  | [] => none
  | c :: rest =>
      if c = '+' then (parseHexUnsigned rest).map (fun n => (n : ℤ))
      else if c = '-' then (parseHexUnsigned rest).map (fun n => -(n : ℤ))
      else (parseHexUnsigned (c :: rest)).map (fun n => (n : ℤ))

/-- Python's `int(x)` on a float: truncation toward zero. -/
def pyTrunc (q : ℚ) : ℤ :=
  if 0 ≤ q then ⌊q⌋ else ⌈q⌉

/-- Round-half-to-even on rationals, as Python's builtin `round` ties. -/
def pyRoundHalfEven (q : ℚ) : ℤ :=
  if q - ⌊q⌋ < 1 / 2 then ⌊q⌋
  else if 1 / 2 < q - ⌊q⌋ then ⌊q⌋ + 1
  else if ⌊q⌋ % 2 = 0 then ⌊q⌋ else ⌊q⌋ + 1

/-- Python's `round(x, 2)`: round to two decimal places. -/
def round2 (q : ℚ) : ℚ :=
  (pyRoundHalfEven (q * 100) : ℚ) / 100

/-- The seed-tier table of `predict_damage_from_hash`
(`chainlink_ml_server.py` lines 243-254): fresh probability and verdict. -/
def hashTier (seed : ℕ) : ℚ × Verdict :=
  if seed < 20 then (0.05 + ((seed : ℚ) / 100) * 0.25, Verdict.rotten)
  else if seed < 40 then (0.3 + ((seed : ℚ) / 100) * 0.25, Verdict.rotten)
  else if seed < 80 then (0.65 + ((seed : ℚ) / 100) * 0.25, Verdict.fresh)
  else (0.85 + ((seed : ℚ) / 100) * 0.15, Verdict.fresh)

/-- The result dictionary of `predict_damage_from_hash` (its score-carrying
fields; the constant `model_version` and `note` strings are omitted). -/
structure HashPredictResult where
  damage_score : ℤ
  prediction : Verdict
  confidence : ℚ
  timestamp : ℕ
  image_hash : List Char
  request_count : ℕ
deriving DecidableEq

/-- `ChainlinkMLAPI.predict_damage_from_hash` (`chainlink_ml_server.py`
lines 231-274).  State = the instance's `request_count`; `now` models
`int(time.time())`.  The counter is incremented at function entry, before
`int(image_hash[:8], 16)` can raise; a parse failure is re-raised as a
generic exception, modelled by `Except.error`.  The `np.random.seed(seed)`
call in the source draws no random value and affects nothing returned. -/
def predict_damage_from_hash (request_count : ℕ) (now : ℕ) (image_hash : List Char) :
    ℕ × Except String HashPredictResult :=
  let rc := request_count + 1
  match pyIntBase16 (image_hash.take 8) with
  | none => (rc, Except.error "Hash-based prediction failed")
  | some n =>
      let seed : ℕ := (n % 100).toNat
      let tier := hashTier seed
      let fresh_prob := tier.1
      let damage_score := pyTrunc ((1 - fresh_prob) * 100)
      let confidence := max fresh_prob (1 - fresh_prob) * 100
      (rc, Except.ok
        { damage_score := damage_score
          prediction := tier.2
          confidence := round2 confidence
          timestamp := now
          image_hash := image_hash
          request_count := rc })

/-- The score triple computed from a probability pair. -/
structure ProbScore where
  prediction : Verdict
  confidence : ℚ
  damage_score : ℤ
deriving DecidableEq

/-- The verdict/score computation shared by
`predict_damage_from_data` (`chainlink_ml_server.py` lines 196-206) and
`predict_damage` (`ml_api_server.py` lines 84-94): branch on
`fresh_prob > rotten_prob`, truncate with `int(...)`, then clamp the damage
score with `max(0, min(100, damage_score))`.  `confidence` is expressed in
percent, as `predict_damage_from_data` stores it. -/
def scoreFromProbabilities (fresh_prob rotten_prob : ℚ) : ProbScore :=
  let raw : ProbScore :=
    if fresh_prob > rotten_prob then
      { prediction := Verdict.fresh
        confidence := fresh_prob * 100
        damage_score := pyTrunc ((1 - fresh_prob) * 100) }
    else
      { prediction := Verdict.rotten
        confidence := rotten_prob * 100
        damage_score := pyTrunc (rotten_prob * 100) }
  { raw with damage_score := max 0 (min 100 raw.damage_score) }

/-- `ChainlinkMLAPI.predict_damage_from_data` (`chainlink_ml_server.py`
lines 162-229).  Image preprocessing and the model call are external
collaborators; `model_output = none` models any of their failures (the
function re-raises them).  The counter is incremented before preprocessing,
so failed calls are counted too. -/
def predict_damage_from_data (request_count : ℕ) (model_output : Option (ℚ × ℚ)) :
    ℕ × Except String ProbScore :=
  let rc := request_count + 1
  match model_output with
  | none => (rc, Except.error "Prediction failed")
  | some (fresh_prob, rotten_prob) =>
      (rc, Except.ok (scoreFromProbabilities fresh_prob rotten_prob))

/-- `ChainlinkMLAPI.predict_damage` (`ml_api_server.py` lines 68-108).
Image download/preprocessing and the model call are external collaborators;
`download = none` models their failure.  The counter is incremented first. -/
def ml_predict_damage (request_count : ℕ) (download : Option (ℚ × ℚ)) :
    ℕ × Except String ProbScore :=
  let rc := request_count + 1
  match download with
  | none => (rc, Except.error "Prediction failed")
  | some (fresh_prob, rotten_prob) =>
      (rc, Except.ok (scoreFromProbabilities fresh_prob rotten_prob))

/-- Body of a JSON HTTP response from the `/predict_hash` handler. -/
inductive HttpBody where
  | errorBody (msg : String) (damage_score : ℤ)
  | okBody (r : HashPredictResult)
deriving DecidableEq

/-- An HTTP response: status code plus JSON body. -/
structure HttpResponse where
  status : ℕ
  body : HttpBody
deriving DecidableEq

/-- The Flask handler `predict_from_hash` (`chainlink_ml_server.py` lines
383-407).  A missing or empty `hash` parameter (`if not image_hash`) yields
HTTP 400 without calling the scorer; otherwise the scorer is called and any
exception it raises is caught and answered with HTTP 500, the error string,
and `damage_score = -1`. -/
def predict_from_hash (request_count now : ℕ) (hashParam : Option (List Char)) :
    ℕ × HttpResponse :=
  match hashParam with
  | none => (request_count, ⟨400, HttpBody.errorBody "hash parameter required" (-1)⟩)
  | some [] => (request_count, ⟨400, HttpBody.errorBody "hash parameter required" (-1)⟩)
  | some h =>
      match predict_damage_from_hash request_count now h with
      | (rc, Except.ok r) => (rc, ⟨200, HttpBody.okBody r⟩)
      | (rc, Except.error e) => (rc, ⟨500, HttpBody.errorBody e (-1)⟩)

/-- Python builtin names referenced by the `/sensor` handler of `tempe.py`. -/
def pyBuiltinNames : List String := ["round", "int"]

/-- Module-level names bound in `tempe.py` when `get_sensor_data` runs:
the imports at lines 1-4 (`random`, `os`, `Flask`, `jsonify`, `CORS`) and
the module-level `app`.  The `time` module is never imported. -/
def tempeModuleGlobals : List String := ["random", "os", "Flask", "jsonify", "CORS", "app"]

/-- Python name lookup: module globals, then builtins. -/
def nameBound (globals : List String) (n : String) : Bool :=
  globals.contains n || pyBuiltinNames.contains n

/-- A Python exception escaping the handler. -/
inductive PyError where
  | nameError (missing : String)
deriving DecidableEq

/-- The JSON response of the `/sensor` endpoint on success. -/
structure SensorReading where
  temperature : ℚ
  timestamp : ℕ
  sensor_id : String
  status : String
deriving DecidableEq

/-- The `/sensor` handler `get_sensor_data` (`tempe.py` lines 9-21).
`randomTemp` models the value of `random.uniform(-5.0, 35.0)` and `now`
models `time.time()`.  Each global name the body reads is looked up in the
module globals and builtins, in the order the bytecode loads them
(`random`, `round`, then inside the response dict `int` and `time`, then
`jsonify`); an unbound name raises `NameError`. -/
def get_sensor_data (globals : List String) (randomTemp : ℚ) (now : ℕ) :
    Except PyError SensorReading :=
  if nameBound globals "random" then
    if nameBound globals "round" then
      if nameBound globals "int" then
        if nameBound globals "time" then
          if nameBound globals "jsonify" then
            Except.ok { temperature := round2 randomTemp, timestamp := now,
                        sensor_id := "TEMP_001", status := "active" }
          else Except.error (PyError.nameError "jsonify")
        else Except.error (PyError.nameError "time")
      else Except.error (PyError.nameError "int")
    else Except.error (PyError.nameError "round")
  else Except.error (PyError.nameError "random")

/-- One call to any of the three scoring operations, with its
collaborator-supplied inputs. -/
inductive ScoringCall where
  | hashCall (now : ℕ) (image_hash : List Char)
  | dataCall (model_output : Option (ℚ × ℚ))
  | urlCall (download : Option (ℚ × ℚ))

/-- Thread the shared `request_count` through a sequence of scoring calls,
returning the final counter value. -/
def runScoringCalls : ℕ → List ScoringCall → ℕ
  | rc, [] => rc
  | rc, c :: rest =>
      runScoringCalls
        (match c with
         | ScoringCall.hashCall now h => (predict_damage_from_hash rc now h).1
         | ScoringCall.dataCall m => (predict_damage_from_data rc m).1
         | ScoringCall.urlCall d => (ml_predict_damage rc d).1)
        rest

/-- Spec-side transcription of the tier table's fresh-probability column
(spec section 4.1); to be compared with `hashTier`. -/
def specFreshProb (seed : ℕ) : ℚ :=
  if seed < 20 then 0.05 + ((seed : ℚ) / 100) * 0.25
  else if seed < 40 then 0.30 + ((seed : ℚ) / 100) * 0.25
  else if seed < 80 then 0.65 + ((seed : ℚ) / 100) * 0.25
  else 0.85 + ((seed : ℚ) / 100) * 0.15

/-- Spec-side transcription of the tier table's verdict column. -/
def specVerdict (seed : ℕ) : Verdict :=
  if seed < 20 then Verdict.rotten
  else if seed < 40 then Verdict.rotten
  else if seed < 80 then Verdict.fresh
  else Verdict.fresh

/-- Spec-side `parseHex` of a plain hex-digit string (spec section 4.1). -/
def specParseHex (s : List Char) : ℕ :=
  s.foldl (fun a c => 16 * a + (hexVal c).getD 0) 0


theorem hexVal_underscore : hexVal '_' = none := by decide

theorem ne_of_hexVal_isSome {c d : Char} (h : (hexVal c).isSome) (hd : hexVal d = none) :
    c ≠ d := by
  intro he
  rw [he, hd] at h
  exact Bool.noConfusion h

theorem isPySpace_eq_false_of_hex {c : Char} (h : (hexVal c).isSome) :
    isPySpace c = false := by
  by_contra hne
  have hsp : isPySpace c = true := by
    cases hv : isPySpace c
    · exact absurd hv hne
    · rfl
  simp only [isPySpace, Bool.or_eq_true, decide_eq_true_eq] at hsp
  rcases hsp with ((((rfl | rfl) | rfl) | rfl) | rfl) | rfl <;>
    exact absurd h (by decide)

theorem dropWhile_eq_self_of_none {p : Char → Bool} {s : List Char}
    (h : ∀ c ∈ s, p c = false) : s.dropWhile p = s := by
  cases s with
  | nil => rfl
  | cons c rest => simp [List.dropWhile, h c (List.mem_cons_self c rest)]

theorem stripPySpaces_eq_self_of_hex {s : List Char}
    (h : ∀ c ∈ s, (hexVal c).isSome) : stripPySpaces s = s := by
  unfold stripPySpaces
  rw [dropWhile_eq_self_of_none (fun c hc => isPySpace_eq_false_of_hex (h c hc))]
  rw [dropWhile_eq_self_of_none
    (fun c hc => isPySpace_eq_false_of_hex (h c (List.mem_reverse.mp hc)))]
  exact List.reverse_reverse s

theorem scanHexDigits_all_hex (s : List Char) (h : ∀ c ∈ s, (hexVal c).isSome)
    (acc : ℕ) :
    scanHexDigits acc true s =
      some (s.foldl (fun a c => 16 * a + (hexVal c).getD 0) acc) := by
  induction s generalizing acc with
  | nil => rfl
  | cons c rest ih =>
      have hc : (hexVal c).isSome := h c (List.mem_cons_self c rest)
      obtain ⟨v, hv⟩ := Option.isSome_iff_exists.mp hc
      have hcu : ¬ (c = '_') := ne_of_hexVal_isSome hc hexVal_underscore
      rw [List.foldl_cons]
      have hstep : scanHexDigits acc true (c :: rest) =
          scanHexDigits (16 * acc + v) true rest := by
        simp [scanHexDigits, hcu, hv]
      rw [hstep, ih (fun d hd => h d (List.mem_cons_of_mem c hd)) (16 * acc + v), hv]
      rfl

theorem parseHexDigits_all_hex (s : List Char) (hne : s ≠ [])
    (h : ∀ c ∈ s, (hexVal c).isSome) :
    parseHexDigits s = some (specParseHex s) := by
  cases s with
  | nil => exact absurd rfl hne
  | cons c rest =>
      have hc : (hexVal c).isSome := h c (List.mem_cons_self c rest)
      obtain ⟨v, hv⟩ := Option.isSome_iff_exists.mp hc
      have hcu : ¬ (c = '_') := ne_of_hexVal_isSome hc hexVal_underscore
      have hstep : parseHexDigits (c :: rest) = scanHexDigits (16 * 0 + v) true rest := by
        simp [parseHexDigits, scanHexDigits, hcu, hv]
      rw [hstep, scanHexDigits_all_hex rest (fun d hd => h d (List.mem_cons_of_mem c hd))]
      unfold specParseHex
      rw [List.foldl_cons, hv]
      rfl

theorem parseHexUnsigned_all_hex (s : List Char) (hne : s ≠ [])
    (h : ∀ c ∈ s, (hexVal c).isSome) :
    parseHexUnsigned s = some (specParseHex s) := by
  match s with
  | [] => exact absurd rfl hne
  | [a] => exact parseHexDigits_all_hex [a] hne h
  | a :: b :: rest =>
      have hb : (hexVal b).isSome := h b (List.mem_cons_of_mem a (List.mem_cons_self b rest))
      have hbx : ¬ (b = 'x') := ne_of_hexVal_isSome hb (by decide)
      have hbX : ¬ (b = 'X') := ne_of_hexVal_isSome hb (by decide)
      have hcond : ¬ (a = '0' ∧ (b = 'x' ∨ b = 'X')) := by
        rintro ⟨-, hx | hX⟩
        · exact hbx hx
        · exact hbX hX
      rw [show parseHexUnsigned (a :: b :: rest) =
            parseHexDigits (a :: b :: rest) by simp [parseHexUnsigned, hcond]]
      exact parseHexDigits_all_hex (a :: b :: rest) hne h

theorem pyIntBase16_all_hex (s : List Char) (hne : s ≠ [])
    (h : ∀ c ∈ s, (hexVal c).isSome) :
    pyIntBase16 s = some ((specParseHex s : ℕ) : ℤ) := by
  cases hs : s with
  | nil => exact absurd hs hne
  | cons c rest =>
      subst hs
      have hc : (hexVal c).isSome := h c (List.mem_cons_self c rest)
      have hcp : ¬ (c = '+') := ne_of_hexVal_isSome hc (by decide)
      have hcm : ¬ (c = '-') := ne_of_hexVal_isSome hc (by decide)
      unfold pyIntBase16
      rw [stripPySpaces_eq_self_of_hex h]
      simp only [hcp, hcm, if_false]
      rw [parseHexUnsigned_all_hex (c :: rest) hne h]
      rfl

theorem pyTrunc_nonneg {q : ℚ} (h : 0 ≤ q) : 0 ≤ pyTrunc q := by
  unfold pyTrunc
  rw [if_pos h]
  exact Int.floor_nonneg.mpr h

theorem pyTrunc_le {q : ℚ} {n : ℤ} (hn : 0 ≤ n) (h : q ≤ (n : ℚ)) : pyTrunc q ≤ n := by
  unfold pyTrunc
  split_ifs with h0
  · calc ⌊q⌋ ≤ ⌊(n : ℚ)⌋ := Int.floor_le_floor h
      _ = n := Int.floor_intCast n
  · have hq0 : q ≤ ((0 : ℤ) : ℚ) := by
      push_cast
      linarith [le_of_not_le h0]
    calc ⌈q⌉ ≤ 0 := Int.ceil_le.mpr hq0
      _ ≤ n := hn

theorem le_pyRoundHalfEven (q : ℚ) : ⌊q⌋ ≤ pyRoundHalfEven q := by
  unfold pyRoundHalfEven
  split_ifs <;> omega

theorem pyRoundHalfEven_le_ceil (q : ℚ) : pyRoundHalfEven q ≤ ⌈q⌉ := by
  have hfc := Int.floor_le_ceil q
  have hkey : ¬ (q - ⌊q⌋ < 1 / 2) → ⌊q⌋ < ⌈q⌉ := by
    intro h1
    have h4 : (⌊q⌋ : ℚ) < q := by
      have h5 := not_lt.mp h1
      linarith
    have h6 : (⌊q⌋ : ℚ) < (⌈q⌉ : ℚ) := lt_of_lt_of_le h4 (Int.le_ceil q)
    exact_mod_cast h6
  unfold pyRoundHalfEven
  split_ifs with h1 h2 h3
  · exact hfc
  · have := hkey h1
    omega
  · exact hfc
  · have := hkey h1
    omega

theorem round2_nonneg {q : ℚ} (h : 0 ≤ q) : 0 ≤ round2 q := by
  unfold round2
  have h1 : (0 : ℤ) ≤ ⌊q * 100⌋ := Int.floor_nonneg.mpr (by nlinarith)
  have h2 : (0 : ℤ) ≤ pyRoundHalfEven (q * 100) := le_trans h1 (le_pyRoundHalfEven _)
  have h3 : (0 : ℚ) ≤ (pyRoundHalfEven (q * 100) : ℚ) := by exact_mod_cast h2
  linarith

theorem round2_le {q : ℚ} {n : ℤ} (h : q ≤ (n : ℚ)) : round2 q ≤ (n : ℚ) := by
  unfold round2
  have h1 : pyRoundHalfEven (q * 100) ≤ ⌈q * 100⌉ := pyRoundHalfEven_le_ceil _
  have h2 : ⌈q * 100⌉ ≤ n * 100 := Int.ceil_le.mpr (by push_cast; nlinarith)
  have h3 : (pyRoundHalfEven (q * 100) : ℚ) ≤ ((n * 100 : ℤ) : ℚ) := by
    exact_mod_cast le_trans h1 h2
  push_cast at h3
  linarith

theorem round2_eq_self {q : ℚ} {m : ℤ} (h : q * 100 = (m : ℚ)) : round2 q = q := by
  unfold round2 pyRoundHalfEven
  rw [h, Int.floor_intCast]
  simp only [sub_self]
  rw [if_pos (by norm_num : (0 : ℚ) < 1 / 2)]
  linarith

theorem hashTier_eq_spec (s : ℕ) : hashTier s = (specFreshProb s, specVerdict s) := by
  unfold hashTier specFreshProb specVerdict
  split_ifs <;> norm_num

theorem specFreshProb_pos (s : ℕ) : 0 < specFreshProb s := by
  have h0 : (0 : ℚ) ≤ (s : ℚ) := Nat.cast_nonneg s
  unfold specFreshProb
  split_ifs <;> nlinarith

theorem specFreshProb_lt_one (s : ℕ) (hs : s < 100) : specFreshProb s < 1 := by
  have h0 : (0 : ℚ) ≤ (s : ℚ) := Nat.cast_nonneg s
  have h1 : (s : ℚ) < 100 := by exact_mod_cast hs
  unfold specFreshProb
  split_ifs <;> nlinarith

theorem specFreshProb_conf_int (s : ℕ) :
    ∃ m : ℤ, max (specFreshProb s) (1 - specFreshProb s) * 100 * 100 = (m : ℚ) := by
  have hr : ∀ f : ℚ, max f (1 - f) * 100 * 100 = max (f * 10000) ((1 - f) * 10000) := by
    intro f
    rw [mul_assoc, max_mul_of_nonneg _ _ (by norm_num : (0 : ℚ) ≤ 100 * 100)]
    norm_num
  unfold specFreshProb
  split_ifs with h1 h2 h3
  · refine ⟨max (500 + 25 * (s : ℤ)) (9500 - 25 * (s : ℤ)), ?_⟩
    rw [hr, Int.cast_max]
    congr 1 <;> push_cast <;> ring_nf
  · refine ⟨max (3000 + 25 * (s : ℤ)) (7000 - 25 * (s : ℤ)), ?_⟩
    rw [hr, Int.cast_max]
    congr 1 <;> push_cast <;> ring_nf
  · refine ⟨max (6500 + 25 * (s : ℤ)) (3500 - 25 * (s : ℤ)), ?_⟩
    rw [hr, Int.cast_max]
    congr 1 <;> push_cast <;> ring_nf
  · refine ⟨max (8500 + 15 * (s : ℤ)) (1500 - 15 * (s : ℤ)), ?_⟩
    rw [hr, Int.cast_max]
    congr 1 <;> push_cast <;> ring_nf

/-- Claim C1: for every hash whose first 8 characters are hexadecimal,
`predict_damage_from_hash` derives `seed = parseHex(hash[0:8]) mod 100`,
an integer in [0,99], and maps it by the fixed tiers: seed in [0,20) gives
ROTTEN with freshProb = 0.05 + (seed/100)*0.25; [20,40) gives ROTTEN with
0.30 + (seed/100)*0.25; [40,80) gives FRESH with 0.65 + (seed/100)*0.25;
[80,100) gives FRESH with 0.85 + (seed/100)*0.15. -/
theorem C1_hash_seed_and_tiers (hash : List Char) (rc now : ℕ)
    (hlen : 8 ≤ hash.length)
    (hhex : ∀ c ∈ hash.take 8, (hexVal c).isSome) :
    specParseHex (hash.take 8) % 100 < 100 ∧
    (predict_damage_from_hash rc now hash).2 = Except.ok
      { damage_score := pyTrunc ((1 - specFreshProb (specParseHex (hash.take 8) % 100)) * 100)
        prediction := specVerdict (specParseHex (hash.take 8) % 100)
        confidence := round2 (max (specFreshProb (specParseHex (hash.take 8) % 100))
          (1 - specFreshProb (specParseHex (hash.take 8) % 100)) * 100)
        timestamp := now
        image_hash := hash
        request_count := rc + 1 } := by
  have hne : hash.take 8 ≠ [] := by
    have hl : (hash.take 8).length = 8 := by
      rw [List.length_take]
      omega
    intro h0
    rw [h0] at hl
    simp at hl
  have hparse := pyIntBase16_all_hex (hash.take 8) hne hhex
  refine ⟨Nat.mod_lt _ (by norm_num), ?_⟩
  unfold predict_damage_from_hash
  rw [hparse]
  have hseed : (((specParseHex (hash.take 8) : ℤ)) % 100).toNat
      = specParseHex (hash.take 8) % 100 := by omega
  simp only [hseed, hashTier_eq_spec]

/-- Witness for C1 at the concrete hash "deadbeef". -/
theorem C1_witness :
    (8 ≤ ("deadbeef".toList).length ∧
      ∀ c ∈ ("deadbeef".toList).take 8, (hexVal c).isSome) ∧
    (specParseHex (("deadbeef".toList).take 8) % 100 < 100 ∧
      (predict_damage_from_hash 0 0 ("deadbeef".toList)).2 = Except.ok
        { damage_score := pyTrunc
            ((1 - specFreshProb (specParseHex (("deadbeef".toList).take 8) % 100)) * 100)
          prediction := specVerdict (specParseHex (("deadbeef".toList).take 8) % 100)
          confidence := round2
            (max (specFreshProb (specParseHex (("deadbeef".toList).take 8) % 100))
              (1 - specFreshProb (specParseHex (("deadbeef".toList).take 8) % 100)) * 100)
          timestamp := 0
          image_hash := "deadbeef".toList
          request_count := 1 }) :=
  ⟨⟨by decide, by decide⟩,
    C1_hash_seed_and_tiers "deadbeef".toList 0 0 (by decide) (by decide)⟩

/-- Claim C2 (determinism): for every valid hash, the damage score, verdict
and confidence returned by `predict_damage_from_hash` do not depend on the
ambient state (request counter, clock): two invocations agree on all three. -/
theorem C2_determinism (hash : List Char) (rc1 rc2 now1 now2 : ℕ) (n : ℤ)
    (hvalid : pyIntBase16 (hash.take 8) = some n) :
    ∃ r1 r2,
      (predict_damage_from_hash rc1 now1 hash).2 = Except.ok r1 ∧
      (predict_damage_from_hash rc2 now2 hash).2 = Except.ok r2 ∧
      r1.damage_score = r2.damage_score ∧
      r1.prediction = r2.prediction ∧
      r1.confidence = r2.confidence := by
  unfold predict_damage_from_hash
  rw [hvalid]
  exact ⟨_, _, rfl, rfl, rfl, rfl, rfl⟩

/-- Witness for C2 at the concrete hash "deadbeef" with two different
ambient states. -/
theorem C2_witness :
    pyIntBase16 (("deadbeef".toList).take 8) = some 3735928559 ∧
    ∃ r1 r2,
      (predict_damage_from_hash 0 2 ("deadbeef".toList)).2 = Except.ok r1 ∧
      (predict_damage_from_hash 1 3 ("deadbeef".toList)).2 = Except.ok r2 ∧
      r1.damage_score = r2.damage_score ∧
      r1.prediction = r2.prediction ∧
      r1.confidence = r2.confidence :=
  ⟨by decide, C2_determinism "deadbeef".toList 0 1 2 3 3735928559 (by decide)⟩

/-- Claim C3 counterexample: the claim says every hash shorter than 8
characters is rejected, but "ab" (2 characters, all hex) is accepted:
`int("ab", 16)` succeeds in Python. -/
theorem C3_counterexample :
    ("ab".toList).length < 8 ∧
    ∃ r, (predict_damage_from_hash 0 0 ("ab".toList)).2 = Except.ok r :=
  ⟨by decide, ⟨_, rfl⟩⟩

/-- Claim C3 as amended: `predict_damage_from_hash` fails exactly when
Python's `int(hash[:8], 16)` fails on the first `min(8, len)` characters;
in particular "xy" is rejected. -/
theorem C3_error_characterization :
    (∀ (hash : List Char) (rc now : ℕ),
      (∃ e, (predict_damage_from_hash rc now hash).2 = Except.error e) ↔
        pyIntBase16 (hash.take 8) = none) ∧
    (∃ e, (predict_damage_from_hash 0 0 ("xy".toList)).2 = Except.error e) := by
  constructor
  · intro hash rc now
    unfold predict_damage_from_hash
    cases h : pyIntBase16 (hash.take 8) <;> simp [h]
  · exact ⟨_, rfl⟩

/-- Claim C4 counterexample: for hash "00000001" (seed 1, freshProb 0.0525)
the code returns damage_score 94 = int(94.75) (truncation), while the
claimed round((1 - freshProb) * 100) is 95. -/
theorem C4_counterexample :
    (∃ r, (predict_damage_from_hash 0 0 ("00000001".toList)).2 = Except.ok r ∧
        r.damage_score = 94) ∧
    round ((1 - (0.05 + ((1 : ℚ) / 100) * 0.25)) * 100) = 95 ∧ (94 : ℤ) ≠ 95 := by
  refine ⟨⟨_, rfl, ?_⟩, ?_, by decide⟩
  · show pyTrunc ((1 - (hashTier (((1 : ℤ) % 100).toNat)).1) * 100) = 94
    have h1 : ((1 : ℤ) % 100).toNat = 1 := by decide
    rw [h1]
    unfold hashTier pyTrunc
    norm_num
  · rw [round_eq]
    norm_num

/-- Claim C4 as amended: for every valid hash, damageScore equals the
truncation toward zero (Python `int()`) of (1 - freshProb) * 100, which
always lies in [0,100] so the clamp is vacuous, and confidencePercent
equals max(freshProb, 1 - freshProb) * 100. -/
theorem C4_damage_trunc_and_confidence (hash : List Char) (rc now : ℕ) (n : ℤ)
    (hvalid : pyIntBase16 (hash.take 8) = some n) :
    ∃ r, (predict_damage_from_hash rc now hash).2 = Except.ok r ∧
      r.damage_score = pyTrunc ((1 - specFreshProb ((n % 100).toNat)) * 100) ∧
      0 ≤ r.damage_score ∧ r.damage_score ≤ 100 ∧
      r.confidence = max (specFreshProb ((n % 100).toNat))
        (1 - specFreshProb ((n % 100).toNat)) * 100 := by
  have hs : (n % 100).toNat < 100 := by omega
  have hf0 := specFreshProb_pos ((n % 100).toNat)
  have hf1 := specFreshProb_lt_one ((n % 100).toNat) hs
  have hd0 : 0 ≤ (1 - specFreshProb ((n % 100).toNat)) * 100 := by nlinarith
  have hd1 : (1 - specFreshProb ((n % 100).toNat)) * 100 ≤ ((100 : ℤ) : ℚ) := by
    push_cast
    nlinarith
  obtain ⟨m, hm⟩ := specFreshProb_conf_int ((n % 100).toNat)
  unfold predict_damage_from_hash
  rw [hvalid]
  simp only [hashTier_eq_spec]
  exact ⟨_, rfl, rfl, pyTrunc_nonneg hd0, pyTrunc_le (by norm_num) hd1, round2_eq_self hm⟩

/-- Witness for the amended C4 at the concrete hash "00000000". -/
theorem C4_witness :
    pyIntBase16 (("00000000".toList).take 8) = some 0 ∧
    ∃ r, (predict_damage_from_hash 0 0 ("00000000".toList)).2 = Except.ok r ∧
      r.damage_score = pyTrunc ((1 - specFreshProb (((0 : ℤ) % 100).toNat)) * 100) ∧
      0 ≤ r.damage_score ∧ r.damage_score ≤ 100 ∧
      r.confidence = max (specFreshProb (((0 : ℤ) % 100).toNat))
        (1 - specFreshProb (((0 : ℤ) % 100).toNat)) * 100 :=
  ⟨by decide, C4_damage_trunc_and_confidence "00000000".toList 0 0 0 (by decide)⟩

/-- Claim C5 counterexample: at freshProb = 0.803, rottenProb = 0.197 the
code returns damage_score 19 = int(19.7) (truncation), while the claimed
round((1 - freshProb) * 100) is 20. -/
theorem C5_counterexample :
    (scoreFromProbabilities (803 / 1000) (197 / 1000)).damage_score = 19 ∧
    round ((1 - (803 : ℚ) / 1000) * 100) = 20 ∧ (19 : ℤ) ≠ 20 := by
  refine ⟨?_, ?_, by decide⟩
  · unfold scoreFromProbabilities pyTrunc
    norm_num
  · rw [round_eq]
    norm_num

/-- Claim C5 as amended: verdict is FRESH iff freshProb > rottenProb (tie
to ROTTEN); damageScore is the truncation toward zero (Python `int()`) of
(1 - freshProb) * 100 for FRESH and of rottenProb * 100 for ROTTEN, clamped
to [0,100]; confidencePercent is the winning probability times 100. -/
theorem C5_probability_scoring (fresh_prob rotten_prob : ℚ) :
    scoreFromProbabilities fresh_prob rotten_prob =
      { prediction := if fresh_prob > rotten_prob then Verdict.fresh else Verdict.rotten
        confidence := (if fresh_prob > rotten_prob then fresh_prob else rotten_prob) * 100
        damage_score := max 0 (min 100 (pyTrunc
          ((if fresh_prob > rotten_prob then 1 - fresh_prob else rotten_prob) * 100))) } := by
  unfold scoreFromProbabilities
  split_ifs <;> rfl

/-- Claim C6 (boundedness): hash-based results always have damageScore and
confidencePercent in [0,100]; probability-based results do too whenever the
input probabilities are in [0,1] (the data model's range). -/
theorem C6_boundedness :
    (∀ (hash : List Char) (rc now : ℕ) (r : HashPredictResult),
        (predict_damage_from_hash rc now hash).2 = Except.ok r →
        0 ≤ r.damage_score ∧ r.damage_score ≤ 100 ∧
        0 ≤ r.confidence ∧ r.confidence ≤ 100) ∧
    (∀ fresh_prob rotten_prob : ℚ,
        0 ≤ fresh_prob → fresh_prob ≤ 1 → 0 ≤ rotten_prob → rotten_prob ≤ 1 →
        0 ≤ (scoreFromProbabilities fresh_prob rotten_prob).damage_score ∧
        (scoreFromProbabilities fresh_prob rotten_prob).damage_score ≤ 100 ∧
        0 ≤ (scoreFromProbabilities fresh_prob rotten_prob).confidence ∧
        (scoreFromProbabilities fresh_prob rotten_prob).confidence ≤ 100) := by
  constructor
  · intro hash rc now r hok
    unfold predict_damage_from_hash at hok
    cases hp : pyIntBase16 (hash.take 8) with
    | none =>
        rw [hp] at hok
        exact absurd hok (by simp)
    | some n =>
        rw [hp] at hok
        simp only [hashTier_eq_spec, Except.ok.injEq] at hok
        subst hok
        have hs : (n % 100).toNat < 100 := by omega
        have hf0 := specFreshProb_pos ((n % 100).toNat)
        have hf1 := specFreshProb_lt_one ((n % 100).toNat) hs
        have hmax0 : (0 : ℚ) ≤ max (specFreshProb ((n % 100).toNat))
            (1 - specFreshProb ((n % 100).toNat)) := le_trans hf0.le (le_max_left _ _)
        have hmax1 : max (specFreshProb ((n % 100).toNat))
            (1 - specFreshProb ((n % 100).toNat)) ≤ 1 := max_le hf1.le (by linarith)
        exact ⟨pyTrunc_nonneg (by nlinarith),
          pyTrunc_le (by norm_num) (by push_cast; nlinarith),
          round2_nonneg (by nlinarith),
          round2_le (by push_cast; nlinarith)⟩
  · intro fresh_prob rotten_prob hf0 hf1 hr0 hr1
    unfold scoreFromProbabilities
    by_cases h : fresh_prob > rotten_prob <;>
      simp only [h, if_pos, if_neg, not_false_iff, if_true, if_false]
    · exact ⟨le_max_left 0 _, max_le (by norm_num) (min_le_left _ _),
        by nlinarith, by nlinarith⟩
    · exact ⟨le_max_left 0 _, max_le (by norm_num) (min_le_left _ _),
        by nlinarith, by nlinarith⟩

/-- Witness for C6 at the hash "deadbeef" and the probability pair
(0.5, 0.5). -/
theorem C6_witness :
    (∃ r, (predict_damage_from_hash 0 0 ("deadbeef".toList)).2 = Except.ok r ∧
      0 ≤ r.damage_score ∧ r.damage_score ≤ 100 ∧
      0 ≤ r.confidence ∧ r.confidence ≤ 100) ∧
    (0 ≤ (scoreFromProbabilities (1 / 2) (1 / 2)).damage_score ∧
      (scoreFromProbabilities (1 / 2) (1 / 2)).damage_score ≤ 100 ∧
      0 ≤ (scoreFromProbabilities (1 / 2) (1 / 2)).confidence ∧
      (scoreFromProbabilities (1 / 2) (1 / 2)).confidence ≤ 100) :=
  ⟨⟨_, rfl, C6_boundedness.1 "deadbeef".toList 0 0 _ rfl⟩,
    C6_boundedness.2 (1 / 2) (1 / 2) (by norm_num) (by norm_num) (by norm_num) (by norm_num)⟩

/-- Claim C7: the four concrete probability pairs evaluate, under exact
rational arithmetic, to exactly the claimed outputs.  (Under Python's
binary floating point the pair (0.8, 0.2) instead yields damage_score 19;
see the results record.) -/
theorem C7_concrete_pairs :
    scoreFromProbabilities (8 / 10) (2 / 10) =
      { prediction := Verdict.fresh, confidence := 80, damage_score := 20 } ∧
    scoreFromProbabilities (3 / 10) (7 / 10) =
      { prediction := Verdict.rotten, confidence := 70, damage_score := 70 } ∧
    (scoreFromProbabilities 1 0).damage_score = 0 ∧
    (scoreFromProbabilities 1 0).prediction = Verdict.fresh ∧
    (scoreFromProbabilities 0 1).damage_score = 100 ∧
    (scoreFromProbabilities 0 1).prediction = Verdict.rotten := by
  refine ⟨?_, ?_, ?_, ?_, ?_, ?_⟩ <;> · unfold scoreFromProbabilities pyTrunc; norm_num

theorem predict_damage_from_hash_increments (rc now : ℕ) (h : List Char) :
    (predict_damage_from_hash rc now h).1 = rc + 1 := by
  unfold predict_damage_from_hash
  cases pyIntBase16 (h.take 8) <;> rfl

theorem predict_damage_from_data_increments (rc : ℕ) (m : Option (ℚ × ℚ)) :
    (predict_damage_from_data rc m).1 = rc + 1 := by
  unfold predict_damage_from_data
  rcases m with _ | ⟨f, r⟩ <;> rfl

theorem ml_predict_damage_increments (rc : ℕ) (d : Option (ℚ × ℚ)) :
    (ml_predict_damage rc d).1 = rc + 1 := by
  unfold ml_predict_damage
  rcases d with _ | ⟨f, r⟩ <;> rfl

/-- Claim C8 (counter monotonicity): a sequence of N scoring calls, of any
mix of the three operations and outcomes, increases the shared request
counter by exactly N. -/
theorem C8_counter_monotonicity (calls : List ScoringCall) (rc : ℕ) :
    runScoringCalls rc calls = rc + calls.length := by
  induction calls generalizing rc with
  | nil => rfl
  | cons c rest ih =>
      cases c with
      | hashCall now h =>
          simp only [runScoringCalls, predict_damage_from_hash_increments, ih,
            List.length_cons]
          omega
      | dataCall m =>
          simp only [runScoringCalls, predict_damage_from_data_increments, ih,
            List.length_cons]
          omega
      | urlCall d =>
          simp only [runScoringCalls, ml_predict_damage_increments, ih,
            List.length_cons]
          omega

/-- Claim C9 counterexample: the malformed hash "xy" is answered with HTTP
status 500, not the claimed 400 (the body does carry an error message and
damage_score -1). -/
theorem C9_counterexample :
    (predict_from_hash 0 0 (some ("xy".toList))).2 =
      { status := 500, body := HttpBody.errorBody "Hash-based prediction failed" (-1) } ∧
    (500 : ℕ) ≠ 400 :=
  ⟨rfl, by decide⟩

/-- Claim C9 as amended: a malformed (nonempty, unparsable) hash is answered
with HTTP 500 and a body carrying the error message and damage_score = -1;
only a missing (or empty) hash parameter is answered with HTTP 400, also
with an error message and damage_score = -1. -/
theorem C9_malformed_hash_is_500 (rc now : ℕ) (h : List Char) (hne : h ≠ [])
    (hbad : pyIntBase16 (h.take 8) = none) :
    (predict_from_hash rc now (some h)).2 =
      { status := 500, body := HttpBody.errorBody "Hash-based prediction failed" (-1) } ∧
    (predict_from_hash rc now none).2 =
      { status := 400, body := HttpBody.errorBody "hash parameter required" (-1) } := by
  constructor
  · cases h with
    | nil => exact absurd rfl hne
    | cons c t =>
        simp only [predict_from_hash, predict_damage_from_hash, hbad]
  · rfl

/-- Witness for the amended C9 at the malformed hash "zz". -/
theorem C9_witness :
    ("zz".toList ≠ [] ∧ pyIntBase16 (("zz".toList).take 8) = none) ∧
    ((predict_from_hash 1 2 (some ("zz".toList))).2 =
        { status := 500, body := HttpBody.errorBody "Hash-based prediction failed" (-1) } ∧
      (predict_from_hash 1 2 none).2 =
        { status := 400, body := HttpBody.errorBody "hash parameter required" (-1) }) :=
  ⟨⟨by decide, by decide⟩, C9_malformed_hash_is_500 1 2 "zz".toList (by decide) (by decide)⟩

/-- Claim C10: every invocation of the `/sensor` handler raises
NameError("time") — `tempe.py` uses `time.time()` but never imports `time`
— so the endpoint never returns a successful temperature reading. -/
theorem C10_sensor_name_error (randomTemp : ℚ) (now : ℕ) :
    get_sensor_data tempeModuleGlobals randomTemp now =
      Except.error (PyError.nameError "time") := by
  rfl
